import Mathlib

/-!
Verification of the incremental render buffer (`AgentDisplay` in
`src/core/display.py`).  Python strings are modelled as `List Char`
(Python `len` and slicing count code points, as does `List.length`
on `Char`), wall-clock instants as `ℚ`, and the fallible message
sink as a function into `Except`; the `try/except: pass` around the
edit call is translated by catching the sink's error explicitly.
-/

namespace AgentDisplay

/-- A Python string, as the sequence of its code points. -/
abbrev PyStr := List Char

/-- `self.logs` entries: `('thinking', content)`, `('tool_call', content)`,
`('tool_result', result)` tuples.  The first two always hold strings built
at append time; `tool_result` stores `state_update.get("result")`, which may
be `None` (the code applies `str(...)` only at render time). -/
inductive LogEntry where
  | thinking (content : PyStr)
  | tool_call (content : PyStr)
  | tool_result (result : Option PyStr)
  deriving DecidableEq

/-- The five recognised values of `state_update.get("status")`, with the
fields each branch reads (`.get` returns `None` when absent), plus a
catch-all for unrecognised statuses. -/
inductive Event where
  | thinking (content : Option PyStr)
  | tool_use (tool : Option PyStr) (args : Option PyStr)
  | observation (result : Option PyStr)
  | final_stream (content : Option PyStr)
  | final (content : Option PyStr)
  | unknown
  deriving DecidableEq

/-- The mutable fields of `AgentDisplay` that the render logic touches. -/
structure DisplayState where
  logs : List LogEntry
  final_response_parts : List PyStr
  last_render_time : ℚ
  render_interval : ℚ
  current_thinking_buffer : List PyStr
  deriving DecidableEq

/-- `__init__`: empty logs and buffers, `last_render_time = 0`,
`render_interval = 2.0`. -/
def initState : DisplayState :=
  { logs := []
    final_response_parts := []
    last_render_time := 0
    render_interval := 2
    current_thinking_buffer := [] }

/-- Python truthiness of an optional string: `None` and `""` are falsy. -/
def truthy : Option PyStr → Bool
  | some c => !c.isEmpty
  | none => false

/-- Python `str(x)` for a value that is either a string or `None`. -/
def pyStr : Option PyStr → PyStr
  | some c => c
  | none => "None".data

/-- The flush idiom repeated in `update`: `if self.current_thinking_buffer:`
append the joined buffer to `logs` as a `thinking` entry and clear the buffer. -/
def flushThinking (s : DisplayState) : DisplayState :=
  if s.current_thinking_buffer.isEmpty then s
  else
    { s with
      logs := s.logs ++ [LogEntry.thinking s.current_thinking_buffer.flatten]
      current_thinking_buffer := [] }

/-- The state-mutation part of `AgentDisplay.update`: dispatch on `status`,
returning the new state and the `should_render` flag. -/
def processEvent (s : DisplayState) (e : Event) : DisplayState × Bool :=
  match e with
  | Event.thinking content =>
      if truthy content then
        ({ s with current_thinking_buffer :=
            s.current_thinking_buffer ++ [content.getD []] }, true)
      else (s, false)
  | Event.tool_use tool args =>
      let s1 := flushThinking s
      ({ s1 with logs := s1.logs ++
          [LogEntry.tool_call (pyStr tool ++ "(".data ++ pyStr args ++ ")".data)] },
       true)
  | Event.observation result =>
      ({ s with logs := s.logs ++ [LogEntry.tool_result result] }, true)
  | Event.final_stream content =>
      let s1 := flushThinking s
      if truthy content then
        ({ s1 with final_response_parts :=
            s1.final_response_parts ++ [content.getD []] }, true)
      else (s1, false)
  | Event.final content =>
      let s1 := flushThinking s
      ({ s1 with final_response_parts :=
          if truthy content then [content.getD []] else [] }, true)
  | Event.unknown => (s, false)

/-- One sequential `replace` of a single character by a string,
as in Python `text.replace(c, r)` for a one-character pattern. -/
def replaceChar (c : Char) (r : PyStr) (l : PyStr) : PyStr :=
  l.flatMap fun d => if d = c then r else [d]

/-- `_sanitize_html`: `.replace("&","&amp;").replace("<","&lt;").replace(">","&gt;")`
(the `if not text: return ""` guard is the identity on the empty string). -/
def sanitize (l : PyStr) : PyStr :=
  replaceChar '>' "&gt;".data (replaceChar '<' "&lt;".data (replaceChar '&' "&amp;".data l))

/-- `str(content)[:200] + ("..." if len(str(content)) > 200 else "")`. -/
def truncTR (r : PyStr) : PyStr :=
  r.take 200 ++ (if 200 < r.length then "...".data else [])

/-- One iteration of the `for type_, content in self.logs:` loop of
`_build_text`.  The emoji prefixes in the source are mojibake
(double-encoded UTF-8); the escapes below are the exact code points the
Python interpreter sees. -/
def logLine : LogEntry → PyStr
  | LogEntry.thinking c =>
      "ðŸ§  <i>Thought:</i> ".data ++ sanitize c ++ "\n\n".data
  | LogEntry.tool_call c =>
      "ðŸ›  <b>Exec:</b> <code>".data ++ sanitize c ++ "</code>\n".data
  | LogEntry.tool_result r =>
      "âœ… <b>Result:</b> ".data ++ sanitize (truncTR (pyStr r)) ++ "\n\n".data

/-- The `log_text` accumulator of `_build_text` just before the length cap:
the rendered log lines followed by the live-thinking line when
`current_think` is non-empty. -/
def buildLogText (logs : List LogEntry) (buffer : List PyStr) : PyStr :=
  (logs.map logLine).flatten ++
    (if buffer.flatten.isEmpty then []
     else "ðŸ§  <i>Thinking...</i> ".data ++ sanitize buffer.flatten ++ "\n".data)

/-- The 2000-character cap on `log_text`:
`if len(log_text) > max_log_len: log_text = "...(earlier logs)...\n" + log_text[-(max_log_len):]`. -/
def capLog (t : PyStr) : PyStr :=
  if 2000 < t.length then "...(earlier logs)...\n".data ++ t.drop (t.length - 2000) else t

/-- `_build_text`: capped log section wrapped in a blockquote when non-empty,
then the escaped final answer, with `"..."` substituted for an empty result. -/
def buildText (s : DisplayState) : PyStr :=
  let log_text := capLog (buildLogText s.logs s.current_thinking_buffer)
  let final_text := s.final_response_parts.flatten
  let full_text :=
    (if log_text.isEmpty then [] else
      "<blockquote>".data ++ log_text ++ "</blockquote>\n\n".data) ++ sanitize final_text
  if full_text.isEmpty then "...".data else full_text

/-- The message sink: `context.bot.edit_message_text`, which either succeeds
or raises (modelled as `Except` with the error payload as a string). -/
abbrev Sink := PyStr → Except PyStr Unit

/-- `_try_render`: skip unless forced or the throttle interval has elapsed;
otherwise build the text and call the sink once, setting `last_render_time`
to a fresh clock reading `now2` on success and swallowing the exception on
failure (`except Exception: pass`).  Returns the new state together with the
list of texts passed to the sink during this call. -/
def tryRenderE (sink : Sink) (s : DisplayState) (force : Bool) (now now2 : ℚ) :
    Except PyStr (DisplayState × List PyStr) :=
  if !force && decide (now - s.last_render_time < s.render_interval) then
    Except.ok (s, [])
  else
    let text := buildText s
    match sink text with
    | Except.ok _ => Except.ok ({ s with last_render_time := now2 }, [text])
    | Except.error _ => Except.ok (s, [text])

/-- `update`: mutate the state per the event, then
`if should_render: await self._try_render()` (never forced).  `now` is the
clock reading at the top of `_try_render`, `now2` the reading taken after a
successful edit. -/
def updateE (sink : Sink) (s : DisplayState) (e : Event) (now now2 : ℚ) :
    Except PyStr (DisplayState × List PyStr) :=
  match processEvent s e with
  | (s1, true) => tryRenderE sink s1 false now now2
  | (s1, false) => Except.ok (s1, [])

/-- A sequence of `update` calls, each with its two clock readings;
collects every text handed to the sink, in order. -/
def runUpdates (sink : Sink) : DisplayState → List (Event × ℚ × ℚ) →
    Except PyStr (DisplayState × List PyStr)
  | s, [] => Except.ok (s, [])
  | s, (e, now, now2) :: rest => do
      let (s1, sent1) ← updateE sink s e now now2
      let (s2, sent2) ← runUpdates sink s1 rest
      return (s2, sent1 ++ sent2)

/-- The pure state evolution of a sequence of events (the render attempt
never touches any field other than `last_render_time`). -/
def runP (s : DisplayState) (evs : List Event) : DisplayState :=
  evs.foldl (fun t e => (processEvent t e).1) s

/-- The three event kinds that flush `current_thinking_buffer`. -/
def isFlushEvent : Event → Bool
  | Event.tool_use _ _ => true
  | Event.final_stream _ => true
  | Event.final _ => true
  | _ => false

/-- A sink that always accepts the edit. -/
def sinkOk : Sink := fun _ => Except.ok ()

/-- A sink that always raises (e.g. a rate-limit rejection). -/
def sinkFail : Sink := fun _ => Except.error "rate limited".data

/-! ### Basic lemmas about the state transition -/

theorem flushThinking_render_interval (s : DisplayState) :
    (flushThinking s).render_interval = s.render_interval := by
  unfold flushThinking; split <;> rfl

theorem flushThinking_last_render_time (s : DisplayState) :
    (flushThinking s).last_render_time = s.last_render_time := by
  unfold flushThinking; split <;> rfl

theorem flushThinking_final_response_parts (s : DisplayState) :
    (flushThinking s).final_response_parts = s.final_response_parts := by
  unfold flushThinking; split <;> rfl

theorem flushThinking_buffer (s : DisplayState) :
    (flushThinking s).current_thinking_buffer = [] := by
  unfold flushThinking; split
  · next h => exact List.isEmpty_iff.mp h
  · rfl

theorem flushThinking_logs (s : DisplayState)
    (hb : s.current_thinking_buffer ≠ []) :
    (flushThinking s).logs =
      s.logs ++ [LogEntry.thinking s.current_thinking_buffer.flatten] := by
  unfold flushThinking; split
  · next h => exact absurd (List.isEmpty_iff.mp h) hb
  · rfl

theorem processEvent_render_interval (s : DisplayState) (e : Event) :
    (processEvent s e).1.render_interval = s.render_interval := by
  cases e <;>
    simp [processEvent, flushThinking_render_interval] <;>
    split <;> simp [flushThinking_render_interval]

theorem processEvent_last_render_time (s : DisplayState) (e : Event) :
    (processEvent s e).1.last_render_time = s.last_render_time := by
  cases e <;>
    simp [processEvent, flushThinking_last_render_time] <;>
    split <;> simp [flushThinking_last_render_time]

theorem processEvent_flush_buffer (s : DisplayState) (e : Event)
    (he : isFlushEvent e = true) :
    (processEvent s e).1.current_thinking_buffer = [] := by
  cases e with
  | tool_use tool args => simp [processEvent, flushThinking_buffer]
  | final_stream content =>
      simp only [processEvent]
      split <;> simp [flushThinking_buffer]
  | final content => simp [processEvent, flushThinking_buffer]
  | thinking content => simp [isFlushEvent] at he
  | observation result => simp [isFlushEvent] at he
  | unknown => simp [isFlushEvent] at he

/-! ### Claim theorems -/

/-- C1: from any state with a non-empty `current_thinking_buffer`, processing
a `tool_use`, `final_stream` or `final` event appends exactly one `thinking`
log entry, holding the concatenation of the buffered fragments in arrival
order, followed only by non-`thinking` entries, and empties the buffer. -/
theorem c1_flush_appends_single_thought (s : DisplayState) (e : Event)
    (hbuf : s.current_thinking_buffer ≠ [])
    (he : isFlushEvent e = true) :
    ∃ rest : List LogEntry,
      (processEvent s e).1.logs =
        s.logs ++ LogEntry.thinking s.current_thinking_buffer.flatten :: rest ∧
      (∀ x ∈ rest, ∀ c, x ≠ LogEntry.thinking c) ∧
      (processEvent s e).1.current_thinking_buffer = [] := by
  cases e with
  | tool_use tool args =>
      refine ⟨[LogEntry.tool_call (pyStr tool ++ "(".data ++ pyStr args ++ ")".data)],
        ?_, ?_, processEvent_flush_buffer s _ rfl⟩
      · simp [processEvent, flushThinking_logs s hbuf]
      · simp
  | final_stream content =>
      refine ⟨[], ?_, by simp, processEvent_flush_buffer s _ rfl⟩
      simp only [processEvent]
      split <;> simp [flushThinking_logs s hbuf]
  | final content =>
      exact ⟨[], by simp [processEvent, flushThinking_logs s hbuf], by simp,
        processEvent_flush_buffer s _ rfl⟩
  | thinking content => simp [isFlushEvent] at he
  | observation result => simp [isFlushEvent] at he
  | unknown => simp [isFlushEvent] at he

/-- C1 witness: a concrete flush of a two-fragment buffer by a `tool_use`. -/
theorem c1_flush_witness :
    (({ initState with current_thinking_buffer := ["a".data, "b".data] } :
        DisplayState).current_thinking_buffer ≠ []) ∧
    isFlushEvent (Event.tool_use (some "t".data) none) = true ∧
    ∃ rest : List LogEntry,
      (processEvent { initState with current_thinking_buffer := ["a".data, "b".data] }
          (Event.tool_use (some "t".data) none)).1.logs =
        ({ initState with current_thinking_buffer := ["a".data, "b".data] } :
          DisplayState).logs ++
          LogEntry.thinking (["a".data, "b".data] : List PyStr).flatten :: rest ∧
      (∀ x ∈ rest, ∀ c, x ≠ LogEntry.thinking c) ∧
      (processEvent { initState with current_thinking_buffer := ["a".data, "b".data] }
          (Event.tool_use (some "t".data) none)).1.current_thinking_buffer = [] :=
  ⟨by simp, rfl,
    c1_flush_appends_single_thought _ _ (by simp) rfl⟩

/-- C2: `final(content)` replaces `final_response_parts` wholesale (empty when
the content is absent or falsy); in particular after `final_stream("a")`,
`final_stream("b")`, `final("c")` the parts are exactly `["c"]` and the
escaped final-answer text rendered from them is exactly `"c"`. -/
theorem c2_final_replaces (s : DisplayState) (c : Option PyStr) :
    (processEvent s (Event.final c)).1.final_response_parts =
      (if truthy c then [c.getD []] else []) ∧
    (runP s [Event.final_stream (some "a".data), Event.final_stream (some "b".data),
             Event.final (some "c".data)]).final_response_parts = ["c".data] ∧
    sanitize ((runP s [Event.final_stream (some "a".data),
        Event.final_stream (some "b".data),
        Event.final (some "c".data)]).final_response_parts.flatten) = "c".data := by
  have hfin : ∀ t : DisplayState,
      (processEvent t (Event.final (some "c".data))).1.final_response_parts =
        ["c".data] := by
    intro t
    have ht : truthy (some "c".data) = true := by decide
    simp [processEvent, ht]
  have hrun : (runP s [Event.final_stream (some "a".data),
      Event.final_stream (some "b".data),
      Event.final (some "c".data)]).final_response_parts = ["c".data] := hfin _
  refine ⟨by simp [processEvent], hrun, ?_⟩
  rw [hrun]
  decide

/-- C5: a `final` event is throttled like any other: when the render interval
has not elapsed, `update` performs the state mutation but hands nothing to
the sink. -/
theorem c5_final_not_forced (sink : Sink) (s : DisplayState) (c : Option PyStr)
    (now now2 : ℚ)
    (h : now - s.last_render_time < s.render_interval) :
    updateE sink s (Event.final c) now now2 =
      Except.ok ((processEvent s (Event.final c)).1, []) := by
  have h1 : (processEvent s (Event.final c)).2 = true := by
    simp [processEvent]
  have h2 : now - (processEvent s (Event.final c)).1.last_render_time <
      (processEvent s (Event.final c)).1.render_interval := by
    rwa [processEvent_last_render_time, processEvent_render_interval]
  unfold updateE
  rcases hp : processEvent s (Event.final c) with ⟨s1, b⟩
  rw [hp] at h1 h2
  subst h1
  simp [tryRenderE, h2]

/-- C5 witness: a `final` event one second after initialisation (interval 2)
reaches the sink zero times. -/
theorem c5_final_not_forced_witness :
    ((1 : ℚ) - initState.last_render_time < initState.render_interval) ∧
    updateE sinkOk initState (Event.final (some "x".data)) 1 1 =
      Except.ok ((processEvent initState (Event.final (some "x".data))).1, []) :=
  ⟨by norm_num [initState],
   c5_final_not_forced sinkOk initState (some "x".data) 1 1
     (by norm_num [initState])⟩

/-- C7: the tool-result payload truncation keeps a payload of at most 200
characters unchanged, and replaces a longer payload by exactly its first 200
characters followed by the `"..."` marker. -/
theorem c7_tool_result_truncation (r : PyStr) :
    (r.length ≤ 200 → truncTR r = r) ∧
    (200 < r.length →
      truncTR r = r.take 200 ++ "...".data ∧ (r.take 200).length = 200) := by
  constructor
  · intro h
    simp [truncTR, Nat.not_lt.mpr h, List.take_of_length_le h]
  · intro h
    refine ⟨by simp [truncTR, h], ?_⟩
    simp [List.length_take]
    omega

/-- C7 witness: a 250-character payload renders as its first 200 characters
plus the marker; a 150-character payload is untouched. -/
theorem c7_tool_result_truncation_witness :
    (200 < (List.replicate 250 'x').length ∧
      truncTR (List.replicate 250 'x') =
        (List.replicate 250 'x').take 200 ++ "...".data ∧
      ((List.replicate 250 'x').take 200).length = 200) ∧
    ((List.replicate 150 'y').length ≤ 200 ∧
      truncTR (List.replicate 150 'y') = List.replicate 150 'y') :=
  ⟨⟨by rw [List.length_replicate]; norm_num,
    (c7_tool_result_truncation (List.replicate 250 'x')).2
      (by rw [List.length_replicate]; norm_num)⟩,
   ⟨by rw [List.length_replicate]; norm_num,
    (c7_tool_result_truncation (List.replicate 150 'y')).1
      (by rw [List.length_replicate]; norm_num)⟩⟩

theorem replaceChar_not_mem {c : Char} {r : PyStr} : ∀ {l : PyStr}, c ∉ l →
    replaceChar c r l = l := by
  intro l
  induction l with
  | nil => intro _; rfl
  | cons d ds ih =>
      intro h
      simp only [List.mem_cons, not_or] at h
      have hd : ¬d = c := fun hdc => h.1 hdc.symm
      show (if d = c then r else [d]) ++ ds.flatMap _ = d :: ds
      rw [if_neg hd]
      show d :: replaceChar c r ds = d :: ds
      rw [ih h.2]

theorem sanitize_of_clean {l : PyStr}
    (h : ∀ d ∈ l, d ≠ '&' ∧ d ≠ '<' ∧ d ≠ '>') :
    sanitize l = l := by
  have h1 : replaceChar '&' "&amp;".data l = l :=
    replaceChar_not_mem fun hm => (h _ hm).1 rfl
  have h2 : replaceChar '<' "&lt;".data l = l :=
    replaceChar_not_mem fun hm => (h _ hm).2.1 rfl
  have h3 : replaceChar '>' "&gt;".data l = l :=
    replaceChar_not_mem fun hm => (h _ hm).2.2 rfl
  rw [sanitize, h1, h2, h3]

/-- The capped log section never exceeds the 21-character omission marker
plus 2000 kept characters. -/
theorem capLog_length_le (t : PyStr) : (capLog t).length ≤ 2021 := by
  unfold capLog
  split
  · rw [List.length_append, List.length_drop]
    have hm : ("...(earlier logs)...\n".data).length = 21 := by decide
    omega
  · omega

/-- C6: the log-section cap keeps a section of at most 2000 characters
unmodified; a longer section is truncated from the front to exactly its most
recent 2000 characters, prefixed with the omission marker. -/
theorem c6_log_section_cap (t : PyStr) :
    (t.length ≤ 2000 → capLog t = t) ∧
    (2000 < t.length →
      capLog t = "...(earlier logs)...\n".data ++ t.drop (t.length - 2000) ∧
      (t.drop (t.length - 2000)).length = 2000 ∧
      t = t.take (t.length - 2000) ++ t.drop (t.length - 2000)) := by
  constructor
  · intro h
    simp [capLog, Nat.not_lt.mpr h]
  · intro h
    refine ⟨by simp [capLog, h], ?_, (List.take_append_drop _ t).symm⟩
    rw [List.length_drop]
    omega

/-- C6 witness: a 5-character section is kept; a 2300-character section keeps
its most recent 2000 characters behind the marker. -/
theorem c6_log_section_cap_witness :
    ((List.replicate 5 'a').length ≤ 2000 ∧
      capLog (List.replicate 5 'a') = List.replicate 5 'a') ∧
    (2000 < (List.replicate 2300 'b').length ∧
      capLog (List.replicate 2300 'b') =
        "...(earlier logs)...\n".data ++
          (List.replicate 2300 'b').drop ((List.replicate 2300 'b').length - 2000) ∧
      ((List.replicate 2300 'b').drop
        ((List.replicate 2300 'b').length - 2000)).length = 2000) :=
  ⟨⟨by rw [List.length_replicate]; norm_num,
    (c6_log_section_cap (List.replicate 5 'a')).1
      (by rw [List.length_replicate]; norm_num)⟩,
   ⟨by rw [List.length_replicate]; norm_num,
    ((c6_log_section_cap (List.replicate 2300 'b')).2
      (by rw [List.length_replicate]; norm_num)).1,
    ((c6_log_section_cap (List.replicate 2300 'b')).2
      (by rw [List.length_replicate]; norm_num)).2.1⟩⟩

/-- With no log entries and no pending thought, the rendered text is just
the escaped final answer (or the placeholder when that is empty). -/
theorem buildText_no_logs (s : DisplayState) (hl : s.logs = [])
    (hb : s.current_thinking_buffer = []) :
    buildText s =
      if sanitize s.final_response_parts.flatten = [] then "...".data
      else sanitize s.final_response_parts.flatten := by
  simp [buildText, buildLogText, capLog, hl, hb]

/-- C8 counterexample: the state reached from `initState` by a single
`final` event carrying 5000 `'a'`s is rendered as 5000 characters, exceeding
the claimed 4096-character bound — only the log section is capped, the final
answer is not. -/
theorem c8_counterexample :
    4096 < (buildText (runP initState
      [Event.final (some (List.replicate 5000 'a'))])).length := by
  have hne : List.replicate 5000 'a' ≠ ([] : PyStr) := by
    intro h
    have h5 := congrArg List.length h
    rw [List.length_replicate, List.length_nil] at h5
    exact absurd h5 (by norm_num)
  have hclean : sanitize (List.replicate 5000 'a') = List.replicate 5000 'a' :=
    sanitize_of_clean (by
      intro d hd
      rw [List.eq_of_mem_replicate hd]
      decide)
  have ht : truthy (some (List.replicate 5000 'a')) = true := by
    simp [truthy, List.isEmpty_iff, hne]
  have hstate : runP initState [Event.final (some (List.replicate 5000 'a'))] =
      { initState with final_response_parts := [List.replicate 5000 'a'] } := by
    show (processEvent initState (Event.final _)).1 = _
    rw [processEvent]
    simp only [ht, if_true]
    rfl
  rw [hstate, buildText_no_logs _ rfl rfl]
  simp only [List.flatten_cons, List.flatten_nil, List.append_nil, hclean]
  rw [if_neg hne, List.length_replicate]
  norm_num

/-- C8 amended: the 4096-character total bound holds whenever the escaped
final-answer text is at most 2048 characters (the capped, wrapped log section
itself never exceeds 2048 characters); an unbounded final answer can exceed
the limit. -/
theorem c8_total_length_amended (s : DisplayState)
    (hfin : (sanitize s.final_response_parts.flatten).length ≤ 2048) :
    (buildText s).length ≤ 4096 := by
  have hcap := capLog_length_le (buildLogText s.logs s.current_thinking_buffer)
  have h12 : ("<blockquote>".data).length = 12 := by decide
  have h15 : ("</blockquote>\n\n".data).length = 15 := by decide
  have h3 : ("...".data).length = 3 := by decide
  simp only [buildText]
  split_ifs <;>
    simp only [List.length_append, List.nil_append, h12, h15, h3] <;> omega

/-- C8 amended witness: the empty initial state renders as `"..."`, within
both bounds. -/
theorem c8_total_length_amended_witness :
    (sanitize initState.final_response_parts.flatten).length ≤ 2048 ∧
    (buildText initState).length ≤ 4096 :=
  ⟨by decide, c8_total_length_amended initState (by decide)⟩

/-- C9: when every sink call fails, `update` still completes normally — the
exception never escapes to the event producer — and the sink is invoked at
most once (no immediate retry). -/
theorem c9_sink_failure_swallowed (sink : Sink) (s : DisplayState) (e : Event)
    (now now2 : ℚ)
    (hfail : ∀ t, ∃ err, sink t = Except.error err) :
    ∃ s1 sent, updateE sink s e now now2 = Except.ok (s1, sent) ∧
      sent.length ≤ 1 := by
  rcases hp : processEvent s e with ⟨s1, b⟩
  unfold updateE
  rw [hp]
  cases b
  · exact ⟨s1, [], rfl, by norm_num⟩
  · by_cases hc : now - s1.last_render_time < s1.render_interval
    · exact ⟨s1, [], by simp [tryRenderE, hc], by norm_num⟩
    · obtain ⟨err, herr⟩ := hfail (buildText s1)
      exact ⟨s1, [buildText s1], by simp [tryRenderE, hc, herr], by norm_num⟩

/-- C9 witness: a concrete always-failing sink on a `final` event past the
throttle window. -/
theorem c9_sink_failure_swallowed_witness :
    ∃ s1 sent, updateE sinkFail initState (Event.final none) 5 5 =
      Except.ok (s1, sent) ∧ sent.length ≤ 1 :=
  c9_sink_failure_swallowed sinkFail initState (Event.final none) 5 5
    (fun _ => ⟨"rate limited".data, rfl⟩)

/-- C10: when the sink raises during an eligible render attempt, `update`
returns exactly the post-mutation state — `last_render_time` (and with it
logs, pending thought and final answer) untouched — after a single sink
invocation, the timestamp still equals the pre-event one, and any later
attempt is still past the throttle window. -/
theorem c10_failed_render_keeps_state (sink : Sink) (s : DisplayState)
    (e : Event) (now now2 : ℚ) (err : PyStr)
    (hdirty : (processEvent s e).2 = true)
    (helig : (processEvent s e).1.render_interval ≤
      now - (processEvent s e).1.last_render_time)
    (hfail : sink (buildText (processEvent s e).1) = Except.error err) :
    updateE sink s e now now2 =
      Except.ok ((processEvent s e).1, [buildText (processEvent s e).1]) ∧
    (processEvent s e).1.last_render_time = s.last_render_time ∧
    ∀ now3, now ≤ now3 →
      (processEvent s e).1.render_interval ≤
        now3 - (processEvent s e).1.last_render_time := by
  refine ⟨?_, processEvent_last_render_time s e, fun now3 h3 => by linarith⟩
  rcases hp : processEvent s e with ⟨s1, b⟩
  rw [hp] at hdirty helig hfail
  have hb : b = true := hdirty
  subst hb
  have helig1 : s1.render_interval ≤ now - s1.last_render_time := helig
  have hfail1 : sink (buildText s1) = Except.error err := hfail
  unfold updateE
  rw [hp]
  show tryRenderE sink s1 false now now2 = Except.ok (s1, [buildText s1])
  simp [tryRenderE, not_lt.mpr helig1, hfail1]

/-- C10 witness: a failing sink on an `observation` event five seconds after
initialisation leaves the state and the zero timestamp as they were. -/
theorem c10_failed_render_keeps_state_witness :
    (updateE sinkFail initState (Event.observation none) 5 6 =
      Except.ok ((processEvent initState (Event.observation none)).1,
        [buildText (processEvent initState (Event.observation none)).1]) ∧
    (processEvent initState (Event.observation none)).1.last_render_time =
      initState.last_render_time ∧
    ∀ now3, (5 : ℚ) ≤ now3 →
      (processEvent initState (Event.observation none)).1.render_interval ≤
        now3 - (processEvent initState
          (Event.observation none)).1.last_render_time) :=
  c10_failed_render_keeps_state sinkFail initState (Event.observation none)
    5 6 "rate limited".data rfl (by norm_num [processEvent, initState]) rfl

/-! ### Commuting the clock with the event mutation -/

/-- Events that merely record a thinking fragment. -/
def isThinkingEvent : Event → Bool
  | Event.thinking _ => true
  | _ => false

theorem flushThinking_set_time (s : DisplayState) (t : ℚ) :
    flushThinking { s with last_render_time := t } =
      { flushThinking s with last_render_time := t } := by
  by_cases h : s.current_thinking_buffer.isEmpty <;> simp [flushThinking, h]

theorem processEvent_set_time (s : DisplayState) (t : ℚ) (e : Event) :
    processEvent { s with last_render_time := t } e =
      ({ (processEvent s e).1 with last_render_time := t },
        (processEvent s e).2) := by
  cases e with
  | thinking content =>
      by_cases htr : truthy content <;> simp [processEvent, htr]
  | tool_use tool args => simp [processEvent, flushThinking_set_time]
  | observation result => simp [processEvent]
  | final_stream content =>
      by_cases htr : truthy content <;>
        simp [processEvent, flushThinking_set_time, htr]
  | final content => simp [processEvent, flushThinking_set_time]
  | unknown => rfl

theorem runP_set_time (evs : List Event) : ∀ (s : DisplayState) (t : ℚ),
    runP { s with last_render_time := t } evs =
      { runP s evs with last_render_time := t } := by
  induction evs with
  | nil => intro s t; rfl
  | cons e rest ih =>
      intro s t
      show runP (processEvent { s with last_render_time := t } e).1 rest = _
      rw [processEvent_set_time]
      exact ih (processEvent s e).1 t

theorem buildText_set_time (s : DisplayState) (t : ℚ) :
    buildText { s with last_render_time := t } = buildText s := rfl

/-! ### Step lemmas for `updateE` and `runUpdates` -/

theorem updateE_skip (sink : Sink) (s : DisplayState) (e : Event)
    (now now2 : ℚ) (hd : (processEvent s e).2 = true)
    (hth : now - s.last_render_time < s.render_interval) :
    updateE sink s e now now2 = Except.ok ((processEvent s e).1, []) := by
  rcases hp : processEvent s e with ⟨s1, b⟩
  rw [hp] at hd
  have hb : b = true := hd
  subst hb
  have ha : s1.last_render_time = s.last_render_time := by
    have h := processEvent_last_render_time s e; rw [hp] at h; exact h
  have hi : s1.render_interval = s.render_interval := by
    have h := processEvent_render_interval s e; rw [hp] at h; exact h
  have h2 : now - s1.last_render_time < s1.render_interval := by
    rw [ha, hi]; exact hth
  unfold updateE
  rw [hp]
  show tryRenderE sink s1 false now now2 = Except.ok (s1, [])
  simp [tryRenderE, h2]

theorem updateE_render_ok (sink : Sink) (s : DisplayState) (e : Event)
    (now now2 : ℚ) (hd : (processEvent s e).2 = true)
    (hel : ¬(now - s.last_render_time < s.render_interval))
    (hok : sink (buildText (processEvent s e).1) = Except.ok ()) :
    updateE sink s e now now2 =
      Except.ok ({ (processEvent s e).1 with last_render_time := now2 },
        [buildText (processEvent s e).1]) := by
  rcases hp : processEvent s e with ⟨s1, b⟩
  rw [hp] at hd hok
  have hb : b = true := hd
  subst hb
  have ha : s1.last_render_time = s.last_render_time := by
    have h := processEvent_last_render_time s e; rw [hp] at h; exact h
  have hi : s1.render_interval = s.render_interval := by
    have h := processEvent_render_interval s e; rw [hp] at h; exact h
  have h2 : ¬(now - s1.last_render_time < s1.render_interval) := by
    rw [ha, hi]; exact hel
  have hok1 : sink (buildText s1) = Except.ok () := hok
  unfold updateE
  rw [hp]
  show tryRenderE sink s1 false now now2 =
    Except.ok ({ s1 with last_render_time := now2 }, [buildText s1])
  simp [tryRenderE, h2, hok1]

theorem runUpdates_nil (sink : Sink) (s : DisplayState) :
    runUpdates sink s [] = Except.ok (s, []) := rfl

theorem runUpdates_cons_ok {sink : Sink} {s a b : DisplayState} {e : Event}
    {now now2 : ℚ} {rest : List (Event × ℚ × ℚ)} {out1 out2 : List PyStr}
    (h1 : updateE sink s e now now2 = Except.ok (a, out1))
    (h2 : runUpdates sink a rest = Except.ok (b, out2)) :
    runUpdates sink s ((e, now, now2) :: rest) =
      Except.ok (b, out1 ++ out2) := by
  unfold runUpdates
  rw [h1]
  show runUpdates sink a rest >>= _ = _
  rw [h2]
  rfl

/-! ### Where the pending-thought buffer can come from -/

theorem processEvent_buffer_passive (s : DisplayState) (e : Event)
    (hf : isFlushEvent e = false)
    (hth : ∀ c, e = Event.thinking c → truthy c = false) :
    (processEvent s e).1.current_thinking_buffer =
      s.current_thinking_buffer := by
  cases e with
  | thinking content => simp [processEvent, hth content rfl]
  | observation result => rfl
  | unknown => rfl
  | tool_use tool args => simp [isFlushEvent] at hf
  | final_stream content => simp [isFlushEvent] at hf
  | final content => simp [isFlushEvent] at hf

theorem runP_append_one (s : DisplayState) (evs : List Event) (e : Event) :
    runP s (evs ++ [e]) = (processEvent (runP s evs) e).1 := by
  simp [runP, List.foldl_append]

/-- A non-empty pending-thought buffer after a run of events traces back
either to a non-empty starting buffer never flushed, or to a truthy
`thinking` event with no flush-triggering event after it. -/
theorem runP_buffer_source (evs : List Event) : ∀ s : DisplayState,
    (runP s evs).current_thinking_buffer ≠ [] →
      (s.current_thinking_buffer ≠ [] ∧ ∀ e ∈ evs, isFlushEvent e = false) ∨
      ∃ pre c post, evs = pre ++ Event.thinking c :: post ∧ truthy c = true ∧
        ∀ e ∈ post, isFlushEvent e = false := by
  induction evs using List.reverseRecOn with
  | nil => exact fun s h => Or.inl ⟨h, by simp⟩
  | append_singleton evs e ih =>
      intro s h
      rw [runP_append_one] at h
      cases hf : isFlushEvent e with
      | true =>
          rw [processEvent_flush_buffer _ _ hf] at h
          exact absurd rfl h
      | false =>
          by_cases hth : ∃ c, e = Event.thinking c ∧ truthy c = true
          · obtain ⟨c, rfl, htr⟩ := hth
            exact Or.inr ⟨evs, c, [], rfl, htr, by simp⟩
          · have hth1 : ∀ c, e = Event.thinking c → truthy c = false := by
              intro c hc
              by_contra hcc
              exact hth ⟨c, hc, by simpa using hcc⟩
            rw [processEvent_buffer_passive _ _ hf hth1] at h
            rcases ih s h with ⟨hb, hall⟩ | ⟨pre, c, post, heq, htr, hpost⟩
            · refine Or.inl ⟨hb, ?_⟩
              intro x hx
              rcases List.mem_append.mp hx with hx | hx
              · exact hall x hx
              · rw [List.mem_singleton.mp hx]; exact hf
            · refine Or.inr ⟨pre, c, post ++ [e], ?_, htr, ?_⟩
              · rw [heq]
                simp [List.append_assoc]
              · intro x hx
                rcases List.mem_append.mp hx with hx | hx
                · exact hpost x hx
                · rw [List.mem_singleton.mp hx]; exact hf

/-- `update` always succeeds, and only the render timestamp can differ from
the pure event mutation. -/
theorem updateE_ok_exists (sink : Sink) (s : DisplayState) (e : Event)
    (now now2 : ℚ) :
    ∃ t0 out, updateE sink s e now now2 =
      Except.ok ({ (processEvent s e).1 with last_render_time := t0 }, out) := by
  rcases hp : processEvent s e with ⟨s1, b⟩
  unfold updateE
  rw [hp]
  cases b
  · exact ⟨s1.last_render_time, [], rfl⟩
  · by_cases hc : now - s1.last_render_time < s1.render_interval
    · exact ⟨s1.last_render_time, [], by simp [tryRenderE, hc]⟩
    · cases hs : sink (buildText s1) with
      | ok u =>
          cases u
          exact ⟨now2, [buildText s1], by simp [tryRenderE, hc, hs]⟩
      | error err =>
          exact ⟨s1.last_render_time, [buildText s1],
            by simp [tryRenderE, hc, hs]⟩

/-- A run of `update` calls always succeeds and reaches the pure fold of the
events, up to the render timestamp. -/
theorem runUpdates_ok (sink : Sink) : ∀ (calls : List (Event × ℚ × ℚ))
    (s : DisplayState),
    ∃ t sent, runUpdates sink s calls =
      Except.ok ({ runP s (calls.map Prod.fst) with last_render_time := t },
        sent) := by
  intro calls
  induction calls with
  | nil => exact fun s => ⟨s.last_render_time, [], rfl⟩
  | cons c rest ih =>
      rcases c with ⟨e, now, now2⟩
      intro s
      obtain ⟨t0, out1, h1⟩ := updateE_ok_exists sink s e now now2
      obtain ⟨t1, out2, h2⟩ :=
        ih { (processEvent s e).1 with last_render_time := t0 }
      refine ⟨t1, out1 ++ out2, ?_⟩
      rw [runUpdates_cons_ok h1 h2, runP_set_time]
      rfl

/-- C3 counterexample: after `thinking("x")` followed by `observation("r")`
the pending-thought buffer is still non-empty although the most recently
processed event is an observation, not a thinking event — `observation`
does not flush. -/
theorem c3_counterexample :
    runUpdates sinkOk initState
        [(Event.thinking (some "x".data), 5, 5),
         (Event.observation (some "r".data), 6, 6)] =
      Except.ok
        ({ logs := [LogEntry.tool_result (some "r".data)]
           final_response_parts := []
           last_render_time := 5
           render_interval := 2
           current_thinking_buffer := ["x".data] },
         [buildText { initState with
            current_thinking_buffer := ["x".data] }]) ∧
    (["x".data] : List PyStr) ≠ [] ∧
    [Event.thinking (some "x".data),
      Event.observation (some "r".data)].getLast? =
      some (Event.observation (some "r".data)) ∧
    isThinkingEvent (Event.observation (some "r".data)) = false := by
  refine ⟨?_, by decide, rfl, rfl⟩
  have hu1 : updateE sinkOk initState (Event.thinking (some "x".data)) 5 5 =
      Except.ok
        ({ (processEvent initState (Event.thinking (some "x".data))).1 with
            last_render_time := 5 },
          [buildText
            (processEvent initState (Event.thinking (some "x".data))).1]) :=
    updateE_render_ok sinkOk initState (Event.thinking (some "x".data)) 5 5
      rfl (by change ¬((5 : ℚ) - 0 < 2); norm_num) rfl
  have hu2 : updateE sinkOk
      { (processEvent initState (Event.thinking (some "x".data))).1 with
          last_render_time := 5 }
      (Event.observation (some "r".data)) 6 6 =
      Except.ok
        ((processEvent
          { (processEvent initState (Event.thinking (some "x".data))).1 with
              last_render_time := 5 }
          (Event.observation (some "r".data))).1, []) :=
    updateE_skip sinkOk _ (Event.observation (some "r".data)) 6 6
      rfl (by change (6 : ℚ) - 5 < 2; norm_num)
  rw [runUpdates_cons_ok hu1 (runUpdates_cons_ok hu2 (runUpdates_nil sinkOk _))]
  rfl

/-- C3 amended: in every state reachable by `update` calls from the initial
state, the pending-thought buffer is non-empty only if a truthy `thinking`
event was processed with no flush-triggering (`tool_use`, `final_stream`,
`final`) event after it; in particular the buffer is empty immediately after
any flush-triggering event. -/
theorem c3_pending_thought_amended (sink : Sink)
    (calls : List (Event × ℚ × ℚ)) (s' : DisplayState) (sent : List PyStr)
    (h : runUpdates sink initState calls = Except.ok (s', sent)) :
    (s'.current_thinking_buffer ≠ [] →
      ∃ pre c post, calls.map Prod.fst = pre ++ Event.thinking c :: post ∧
        truthy c = true ∧ ∀ e ∈ post, isFlushEvent e = false) ∧
    (∀ pre e, calls.map Prod.fst = pre ++ [e] → isFlushEvent e = true →
      s'.current_thinking_buffer = []) := by
  obtain ⟨t, sent0, h0⟩ := runUpdates_ok sink calls initState
  rw [h] at h0
  injection h0 with h0
  have hbuf : s'.current_thinking_buffer =
      (runP initState (calls.map Prod.fst)).current_thinking_buffer := by
    have hs := congrArg (fun p => p.1.current_thinking_buffer) h0
    simpa using hs
  constructor
  · intro hne
    rw [hbuf] at hne
    rcases runP_buffer_source _ initState hne with ⟨hb, _⟩ | hr
    · exact absurd rfl hb
    · exact hr
  · intro pre e hsplit hf
    rw [hbuf, hsplit, runP_append_one, processEvent_flush_buffer _ _ hf]

/-- C3 amended witness: a concrete trace ending in an observation, where the
non-empty buffer traces back to the thinking event before it. -/
theorem c3_pending_thought_amended_witness :
    ∃ pre c post,
      ([(Event.thinking (some "y".data), (5 : ℚ), (5 : ℚ)),
        (Event.observation (some "o".data), 6, 6)].map Prod.fst) =
        pre ++ Event.thinking c :: post ∧ truthy c = true ∧
      ∀ e ∈ post, isFlushEvent e = false :=
  (c3_pending_thought_amended sinkOk
    [(Event.thinking (some "y".data), 5, 5),
     (Event.observation (some "o".data), 6, 6)]
    { logs := [LogEntry.tool_result (some "o".data)]
      final_response_parts := []
      last_render_time := 5
      render_interval := 2
      current_thinking_buffer := ["y".data] }
    [buildText { initState with current_thinking_buffer := ["y".data] }]
    (by
      have hu1 : updateE sinkOk initState
          (Event.thinking (some "y".data)) 5 5 =
          Except.ok
            ({ (processEvent initState
                  (Event.thinking (some "y".data))).1 with
                last_render_time := 5 },
              [buildText
                (processEvent initState
                  (Event.thinking (some "y".data))).1]) :=
        updateE_render_ok sinkOk initState (Event.thinking (some "y".data))
          5 5 rfl (by change ¬((5 : ℚ) - 0 < 2); norm_num) rfl
      have hu2 : updateE sinkOk
          { (processEvent initState (Event.thinking (some "y".data))).1 with
              last_render_time := 5 }
          (Event.observation (some "o".data)) 6 6 =
          Except.ok
            ((processEvent
              { (processEvent initState
                  (Event.thinking (some "y".data))).1 with
                  last_render_time := 5 }
              (Event.observation (some "o".data))).1, []) :=
        updateE_skip sinkOk _ (Event.observation (some "o".data)) 6 6
          rfl (by change (6 : ℚ) - 5 < 2; norm_num)
      rw [runUpdates_cons_ok hu1 (runUpdates_cons_ok hu2 (runUpdates_nil sinkOk _))]
      rfl)).1 (by decide)

/-- C4: with interval 2.0 and a healthy sink, two dirty `update` calls 0.5
seconds apart perform exactly one sink invocation, and a third dirty call
2.1 seconds after the first performs a second invocation whose text is built
from the state accumulated across all three calls. -/
theorem c4_throttle_coalesces (sink : Sink) (s0 : DisplayState)
    (e1 e2 e3 : Event) (t1 r1 r2 r3 : ℚ)
    (hint : s0.render_interval = 2)
    (hok : ∀ t, sink t = Except.ok ())
    (h1 : (processEvent s0 e1).2 = true)
    (h2 : (processEvent (processEvent s0 e1).1 e2).2 = true)
    (h3 : (processEvent (processEvent (processEvent s0 e1).1 e2).1 e3).2 = true)
    (helig : s0.last_render_time + 2 ≤ t1)
    (hr1a : t1 ≤ r1) (hr1b : r1 ≤ t1 + 1 / 10) :
    runUpdates sink s0
        [(e1, t1, r1), (e2, t1 + 1 / 2, r2), (e3, t1 + 21 / 10, r3)] =
      Except.ok
        ({ (processEvent (processEvent (processEvent s0 e1).1 e2).1 e3).1 with
            last_render_time := r3 },
          [buildText (processEvent s0 e1).1,
           buildText
             (processEvent (processEvent (processEvent s0 e1).1 e2).1
               e3).1]) := by
  have hu1 : updateE sink s0 e1 t1 r1 =
      Except.ok ({ (processEvent s0 e1).1 with last_render_time := r1 },
        [buildText (processEvent s0 e1).1]) :=
    updateE_render_ok sink s0 e1 t1 r1 h1
      (by rw [not_lt, hint]; linarith) (hok _)
  set s1 := (processEvent s0 e1).1 with hs1
  set s2 := (processEvent s1 e2).1 with hs2
  set s3 := (processEvent s2 e3).1 with hs3
  have hint1 : s1.render_interval = 2 := by
    rw [hs1, processEvent_render_interval]; exact hint
  have hint2 : s2.render_interval = 2 := by
    rw [hs2, processEvent_render_interval]; exact hint1
  have hu2 : updateE sink { s1 with last_render_time := r1 } e2
      (t1 + 1 / 2) r2 =
      Except.ok ((processEvent { s1 with last_render_time := r1 } e2).1,
        []) := by
    apply updateE_skip
    · rw [processEvent_set_time]; exact h2
    · change t1 + 1 / 2 - r1 < s1.render_interval
      rw [hint1]; linarith
  rw [processEvent_set_time] at hu2
  dsimp only at hu2
  have hu3 : updateE sink { s2 with last_render_time := r1 } e3
      (t1 + 21 / 10) r3 =
      Except.ok
        ({ (processEvent { s2 with last_render_time := r1 } e3).1 with
            last_render_time := r3 },
          [buildText
            (processEvent { s2 with last_render_time := r1 } e3).1]) := by
    apply updateE_render_ok
    · rw [processEvent_set_time]; exact h3
    · change ¬(t1 + 21 / 10 - r1 < s2.render_interval)
      rw [hint2, not_lt]; linarith
    · exact hok _
  rw [processEvent_set_time] at hu3
  dsimp only at hu3
  rw [buildText_set_time] at hu3
  have hbase : runUpdates sink { s3 with last_render_time := r3 } [] =
      Except.ok ({ s3 with last_render_time := r3 }, []) := rfl
  rw [runUpdates_cons_ok hu1 (runUpdates_cons_ok hu2
    (runUpdates_cons_ok hu3 hbase))]
  simp

/-- C4 witness: two thinking fragments then an observation, at times 2, 2.5
and 4.1 from a fresh display. -/
theorem c4_throttle_coalesces_witness :
    runUpdates sinkOk initState
        [(Event.thinking (some "a".data), 2, 2),
         (Event.thinking (some "b".data), 2 + 1 / 2, 0),
         (Event.observation (some "r".data), 2 + 21 / 10, 3)] =
      Except.ok
        ({ (processEvent (processEvent
              (processEvent initState (Event.thinking (some "a".data))).1
              (Event.thinking (some "b".data))).1
              (Event.observation (some "r".data))).1 with
            last_render_time := 3 },
          [buildText
            (processEvent initState (Event.thinking (some "a".data))).1,
           buildText
             (processEvent (processEvent
               (processEvent initState (Event.thinking (some "a".data))).1
               (Event.thinking (some "b".data))).1
               (Event.observation (some "r".data))).1]) :=
  c4_throttle_coalesces sinkOk initState
    (Event.thinking (some "a".data)) (Event.thinking (some "b".data))
    (Event.observation (some "r".data)) 2 2 0 3
    rfl (fun _ => rfl) rfl rfl rfl
    (by norm_num [initState]) (by norm_num) (by norm_num)

end AgentDisplay
